import Mathlib

/-!
Verification of the report-builder mechanism of the exel-DSA repository.

The two scripts `generate_cpp_functions_catalog.py` and
`generate_datastructures_catalog.py` write multi-sheet spreadsheet workbooks:
each table (a sequence of uniform records) becomes one sheet whose first row
is the field names and whose following rows are the records, in order.  The
first script then applies `format_worksheet` (header styling, auto-filter,
frozen panes, column widths, row banding, borders); the second only adjusts
column widths inside the writer block.

This file embeds the cell grid, the styling state and the two formatting
passes, together with the workbook-level `render` operation described by the
design document (its up-front schema validation is modelled from the spec:
the scripts themselves write fixed, distinct sheet names and never validate).
-/

set_option autoImplicit false

namespace ExcelDSA

/-- A scalar cell value: string, integer, or absent (`None` once the sheet is
reloaded, `NaN` in the frame).  Mirrors the values of the literal records in
both scripts. -/
inductive Value where
  | str (s : String)
  | int (n : Int)
  | none
deriving DecidableEq, Repr

/-- Python's `str(cell.value)`, as used by the column-width loops: a string
prints as itself, an integer via decimal notation, and `str(None)` is the
four-character string `"None"`. -/
def pyStr : Value → String
  | .str s => s
  | .int n => toString n
  | .none => "None"

/-- The font attributes `format_worksheet` sets (`Font(bold=..., color=...,
size=...)`); `Option` at the cell means the default font. -/
structure CellFont where
  bold : Bool
  color : String
  size : Nat
deriving DecidableEq, Repr

/-- The alignment attributes `format_worksheet` sets
(`Alignment(horizontal=..., vertical=..., wrap_text=...)`). -/
structure CellAlign where
  horizontal : String
  vertical : String
  wrapText : Bool
deriving DecidableEq, Repr

/-- One spreadsheet cell: its value plus the styling state touched by the
scripts.  `fill` holds the pattern-fill start-color index (openpyxl reports
`'00000000'` for an unfilled cell); `hasBorder` records whether the thin
black border of `format_worksheet` has been applied. -/
structure Cell where
  value : Value
  fill : String
  font : Option CellFont
  align : Option CellAlign
  hasBorder : Bool
deriving DecidableEq, Repr

/-- A worksheet: title, the rectangular grid of cells (row 1 is the header
row), and the sheet-level state the scripts touch: auto-filter reference,
frozen-pane anchor, and the widths assigned to the columns. -/
structure Worksheet where
  title : String
  rows : List (List Cell)
  autoFilterRef : Option String
  freezePanes : Option String
  colWidths : List Nat
deriving DecidableEq, Repr

/-- `UNFILLED_COLOR = '00000000'`, the default unfilled cell color constant of
`generate_cpp_functions_catalog.py`. -/
def UNFILLED_COLOR : String := "00000000"

/-- The banding fill color `'F2F2F2'` (`light_fill`). -/
def LIGHT_FILL : String := "F2F2F2"

/-- `header_font = Font(bold=True, color='FFFFFF', size=11)`. -/
def headerFont : CellFont := { bold := true, color := "FFFFFF", size := 11 }

/-- `header_alignment = Alignment(horizontal='center', vertical='center',
wrap_text=True)`. -/
def headerAlign : CellAlign :=
  { horizontal := "center", vertical := "center", wrapText := true }

/-- The per-cell effect of the header loop of `format_worksheet`: set the
header fill, font, alignment and border. -/
def styleHeaderCell (headerColor : String) (c : Cell) : Cell :=
  { c with fill := headerColor, font := some headerFont,
           align := some headerAlign, hasBorder := true }

/-- The banding conditional: `if cell.fill.start_color.index ==
UNFILLED_COLOR: cell.fill = light_fill`. -/
def bandCell (c : Cell) : Cell :=
  if c.fill = UNFILLED_COLOR then { c with fill := LIGHT_FILL } else c

/-- `cell.border = border` (the thin black border). -/
def borderCell (c : Cell) : Cell := { c with hasBorder := true }

/-- The body of the `for row_idx, row in enumerate(ws.iter_rows(min_row=2),
start=2)` loop: on an even sheet row every still-unfilled cell receives the
light fill, and every cell of the row receives the border. -/
def formatRow (rowIdx : Nat) (row : List Cell) : List Cell :=
  (if rowIdx % 2 = 0 then row.map bandCell else row).map borderCell

/-- The header loop `for cell in ws[1]`: style row 1, leave the rest. -/
def headerPass (headerColor : String) : List (List Cell) → List (List Cell)
  | [] => []
  | hdr :: rest => hdr.map (styleHeaderCell headerColor) :: rest

/-- The banding/border loop over `ws.iter_rows(min_row=2)` with sheet row
indices starting at 2; the header row is not visited. -/
def bandBorderPass : List (List Cell) → List (List Cell)
  | [] => []
  | hdr :: rest => hdr :: (List.enumFrom 2 rest).map (fun p => formatRow p.1 p.2)

/-- Number of columns of the populated rectangle (the longest row). -/
def ncols (rows : List (List Cell)) : Nat :=
  (rows.map List.length).foldl Nat.max 0

/-- The cells of column `j` (0-based), top to bottom — what `ws.columns`
yields for one column of a rectangular sheet. -/
def colCells (rows : List (List Cell)) (j : Nat) : List Cell :=
  rows.filterMap (fun r => r.get? j)

/-- `len(str(cell.value))`. -/
def cellLen (c : Cell) : Nat := (pyStr c.value).length

/-- The `max_length` accumulation of the width loops: start at 0 and replace
whenever `len(str(cell.value)) > max_length`. -/
def colMaxLen (rows : List (List Cell)) (j : Nat) : Nat :=
  (colCells rows j).foldl (fun m c => if cellLen c > m then cellLen c else m) 0

/-- `adjusted_width = min(max_length + margin, cap)` for every column; the
cpp-catalog script uses margin 3 and cap 60, the data-structures script
margin 2 and cap 50. -/
def computeWidths (rows : List (List Cell)) (margin cap : Nat) : List Nat :=
  (List.range (ncols rows)).map (fun j => min (colMaxLen rows j + margin) cap)

/-- Fuel-driven core of `get_column_letter` (bijective base-26 letters). -/
def colLetterAux : Nat → Nat → String
  | _, 0 => ""
  | 0, _ + 1 => ""
  | fuel + 1, n + 1 =>
      colLetterAux fuel (n / 26) ++ String.singleton (Char.ofNat (65 + n % 26))

/-- `openpyxl.utils.get_column_letter`: 1 ↦ "A", 26 ↦ "Z", 27 ↦ "AA", … -/
def get_column_letter (n : Nat) : String := colLetterAux n n

/-- `ws.dimensions`: the populated rectangle `A1:<last column><last row>`. -/
def dimensionsOf (rows : List (List Cell)) : String :=
  "A1:" ++ get_column_letter (Nat.max (ncols rows) 1)
        ++ toString (Nat.max rows.length 1)

/-- `format_worksheet(ws, header_color, freeze_panes)` of
`generate_cpp_functions_catalog.py`: style the header row, set the
auto-filter over `ws.dimensions`, freeze panes at `B2` when requested,
assign `min(max_length + 3, 60)` column widths, then band even sheet rows
and border every data cell. -/
def format_worksheet (ws : Worksheet) (header_color : String)
    (freeze_panes : Bool) : Worksheet :=
  let rows1 := headerPass header_color ws.rows
  let af := some (dimensionsOf rows1)
  let fp := if freeze_panes then some "B2" else ws.freezePanes
  let widths := computeWidths rows1 3 60
  { title := ws.title, rows := bandBorderPass rows1,
    autoFilterRef := af, freezePanes := fp, colWidths := widths }

/-- A table: sheet title, the ordered field names, and the records.  A record
is kept as the ordered association list of (field name, value) pairs that the
Python dict literal is. -/
structure Table where
  name : String
  fields : List String
  records : List (List (String × Value))
deriving DecidableEq, Repr

/-- A freshly written cell: the value with every style at its default. -/
def plainCell (v : Value) : Cell :=
  { value := v, fill := UNFILLED_COLOR, font := none, align := none,
    hasBorder := false }

/-- The header row `to_excel` writes: the field names, in declared order. -/
def headerRowOf (t : Table) : List Cell :=
  t.fields.map (fun f => plainCell (.str f))

/-- One data row: the record's values in field order. -/
def dataRowOf (r : List (String × Value)) : List Cell :=
  r.map (fun p => plainCell p.2)

/-- `df.to_excel(writer, sheet_name=..., index=False)`: the sheet holds the
header row followed by one row per record, in record order; no sheet-level
styling is set by the write itself. -/
def writeSheet (t : Table) : Worksheet :=
  { title := t.name, rows := headerRowOf t :: t.records.map dataRowOf,
    autoFilterRef := Option.none, freezePanes := Option.none, colWidths := [] }

/-- No sheet name occurs twice. -/
def uniqueNames : List String → Bool
  | [] => true
  | n :: rest => (!rest.contains n) && uniqueNames rest

/-- Every record of the table lists exactly the table's fields, in order. -/
def tableConsistent (t : Table) : Bool :=
  t.records.all (fun r => r.map Prod.fst == t.fields)

/-- The workbook-level validity the design document requires up front:
unique sheet names and internally consistent record schemas. -/
def validWorkbook (wb : List Table) : Bool :=
  uniqueNames (wb.map Table.name) && wb.all tableConsistent

/-- The error taxonomy of the design document relevant to validation. -/
inductive RenderError where
  | schemaError
deriving DecidableEq, Repr

/-- Modelled from the spec: the scripts write fixed workbooks with distinct
hard-coded sheet names and contain no validation code, so the up-front
`SchemaError` check of `render` is taken from the design document.  The
per-sheet behaviour is the cpp-catalog pipeline: write each table with
`to_excel` (header row then records, in order), then apply
`format_worksheet` with the sheet's configured header color and frozen
panes, one sheet per table, in input order. -/
def render (colorFor : String → String) (wb : List Table) :
    Except RenderError (List Worksheet) :=
  if validWorkbook wb then
    .ok (wb.map (fun t => format_worksheet (writeSheet t) (colorFor t.name) true))
  else
    .error .schemaError

/-- The observable file state at the output path: `Option.none` when no file
exists, otherwise the workbook content stored there.  A failing `render`
leaves the file state untouched; a successful one overwrites it. -/
def renderToFile (colorFor : String → String) (wb : List Table)
    (prev : Option (List Worksheet)) : Option (List Worksheet) :=
  match render colorFor wb with
  | .ok sheets => some sheets
  | .error _ => prev

/-- An output artifact: the path it was written to and its structural
content (the sheets).  Timestamp metadata of the container format is outside
the structural content by definition. -/
structure RenderedFile where
  path : String
  content : Except RenderError (List Worksheet)
deriving Repr

/-- Render a workbook to a destination path. -/
def renderFile (colorFor : String → String) (wb : List Table)
    (p : String) : RenderedFile :=
  { path := p, content := render colorFor wb }

/-- The writer block of `generate_datastructures_catalog.py` applied to one
sheet: only the column widths are assigned (`min(max_length + 2, 50)`). -/
def dsWidthPass (ws : Worksheet) : Worksheet :=
  { ws with colWidths := computeWidths ws.rows 2 50 }

/-- The whole `pd.ExcelWriter` block of the data-structures script: write
each table in order, then run the column-width loop on each sheet.  No other
formatting is applied. -/
def dsGenerate (tables : List Table) : List Worksheet :=
  tables.map (fun t => dsWidthPass (writeSheet t))

/-- The grid of cell values of a row. -/
def rowValues (row : List Cell) : List Value := row.map Cell.value

/-- The grid of cell values of a worksheet's rows. -/
def valuesGrid (rows : List (List Cell)) : List (List Value) :=
  rows.map rowValues

/-- Sheet row `i` (1-based) exists, is non-empty, and every cell of it
carries the banding fill. -/
def rowHasBandingFill (ws : Worksheet) (i : Nat) : Bool :=
  match ws.rows.get? (i - 1) with
  | some row => !row.isEmpty && row.all (fun c => c.fill == LIGHT_FILL)
  | Option.none => false

/-- The `"Demo"` table of the spec's concrete scenario: fields
`["Name","Value"]`, records `[{"Name":"a","Value":1},{"Name":"b","Value":2}]`. -/
def demoTable : Table :=
  { name := "Demo", fields := ["Name", "Value"],
    records := [[("Name", .str "a"), ("Value", .int 1)],
                [("Name", .str "b"), ("Value", .int 2)]] }

/-- The one-table demo workbook. -/
def demoWb : List Table := [demoTable]

/-- The demo sheet after writing and formatting. -/
def demoSheetF : Worksheet :=
  format_worksheet (writeSheet demoTable) "4472C4" true

/-- The maximum textual width of any cell of column `j`, header included:
the specification-side reading of `max_length`. -/
def maxTextLen (rows : List (List Cell)) (j : Nat) : Nat :=
  ((colCells rows j).map cellLen).foldl Nat.max 0

/-- A one-column grid whose header is the two-character string `"ab"` and
whose two data cells are both absent. -/
def noneColumnRows : List (List Cell) :=
  [[plainCell (.str "ab")], [plainCell Value.none], [plainCell Value.none]]

/-! ### Width computation lemmas -/

theorem maxStep (m x : Nat) : (if x > m then x else m) = Nat.max m x := by
  by_cases h : x > m
  · rw [if_pos h]; exact (Nat.max_eq_right (Nat.le_of_lt h)).symm
  · rw [if_neg h]; exact (Nat.max_eq_left (Nat.le_of_not_lt h)).symm

theorem foldIf_eq_foldMax (l : List Cell) (a : Nat) :
    l.foldl (fun m c => if cellLen c > m then cellLen c else m) a
      = (l.map cellLen).foldl Nat.max a := by
  rw [List.foldl_map]
  congr 1
  funext m c
  exact maxStep m (cellLen c)

theorem colMaxLen_eq_maxTextLen (rows : List (List Cell)) (j : Nat) :
    colMaxLen rows j = maxTextLen rows j :=
  foldIf_eq_foldMax (colCells rows j) 0

theorem le_foldl_max (l : List Nat) : ∀ a : Nat, a ≤ l.foldl Nat.max a := by
  induction l with
  | nil => intro a; exact Nat.le_refl a
  | cons x tl ih =>
      intro a
      exact Nat.le_trans (Nat.le_max_left a x) (ih (Nat.max a x))

theorem mem_le_foldl_max (l : List Nat) :
    ∀ a x : Nat, x ∈ l → x ≤ l.foldl Nat.max a := by
  induction l with
  | nil => intro a x hx; cases hx
  | cons y tl ih =>
      intro a x hx
      rcases List.mem_cons.mp hx with h | h
      · subst h
        exact Nat.le_trans (Nat.le_max_right a x) (le_foldl_max tl (Nat.max a x))
      · exact ih (Nat.max a y) x h

theorem length_le_ncols (rows : List (List Cell)) (r : List Cell)
    (hr : r ∈ rows) : r.length ≤ ncols rows :=
  mem_le_foldl_max (rows.map List.length) 0 r.length
    (List.mem_map.mpr ⟨r, hr, rfl⟩)

theorem computeWidths_get (rows : List (List Cell)) (margin cap j : Nat)
    (hj : j < ncols rows) :
    (computeWidths rows margin cap).get? j
      = some (min (colMaxLen rows j + margin) cap) := by
  unfold computeWidths
  rw [List.get?_map, List.get?_range hj]
  rfl

theorem cellLen_none (c : Cell) (h : c.value = Value.none) : cellLen c = 4 := by
  rw [cellLen, h]; rfl

theorem foldl_max_all4 (l : List Nat) :
    ∀ a : Nat, (∀ x ∈ l, x = 4) → l ≠ [] → a ≤ 4 → l.foldl Nat.max a = 4 := by
  induction l with
  | nil => intro a _ hne _; exact absurd rfl hne
  | cons x rest ih =>
      intro a hall hne ha
      have hx : x = 4 := hall x (List.mem_cons_self x rest)
      have hacc : Nat.max a x = 4 := by
        rw [hx]; exact Nat.max_eq_right ha
      cases rest with
      | nil => simpa [List.foldl] using hacc
      | cons y tl =>
          rw [List.foldl_cons, hacc]
          exact ih 4 (fun z hz => hall z (List.mem_cons_of_mem x hz))
            (List.cons_ne_nil y tl) (Nat.le_refl 4)

theorem colCells_cons_lt_ncols (rows : List (List Cell)) (j : Nat)
    (hne : colCells rows j ≠ []) : j < ncols rows := by
  unfold colCells at hne
  have h2 : ¬ ∀ r ∈ rows, r.get? j = Option.none := by
    intro hall
    exact hne (List.filterMap_eq_nil.mpr hall)
  push_neg at h2
  rcases h2 with ⟨r, hr, hget⟩
  have hlen : j < r.length := by
    by_contra hge
    exact hget (List.get?_eq_none.mpr (Nat.le_of_not_lt hge))
  exact Nat.lt_of_lt_of_le hlen (length_le_ncols rows r hr)

/-! ### Claims C5 and C10: column widths -/

/--
**C5.**  For every sheet grid and every column `j`, the width assigned by the
column-width loop is `min(L + margin, cap)` where `L` is the maximum textual
length of any cell value in the column, header included; and whenever
`L + margin` is below the cap the width is exactly `L + margin`.
-/
theorem c5_column_width (rows : List (List Cell)) (margin cap j : Nat)
    (hj : j < ncols rows) :
    (computeWidths rows margin cap).get? j
      = some (min (maxTextLen rows j + margin) cap) ∧
    (maxTextLen rows j + margin < cap →
      (computeWidths rows margin cap).get? j
        = some (maxTextLen rows j + margin)) := by
  have h := computeWidths_get rows margin cap j hj
  rw [colMaxLen_eq_maxTextLen] at h
  refine ⟨h, fun hlt => ?_⟩
  rw [h, Nat.min_eq_left (Nat.le_of_lt hlt)]

/-- Witness for C5 at the written `Demo` sheet, column 0, margin 3, cap 60. -/
theorem c5_column_width_witness :
    0 < ncols (writeSheet demoTable).rows ∧
    ((computeWidths (writeSheet demoTable).rows 3 60).get? 0
        = some (min (maxTextLen (writeSheet demoTable).rows 0 + 3) 60) ∧
     (maxTextLen (writeSheet demoTable).rows 0 + 3 < 60 →
      (computeWidths (writeSheet demoTable).rows 3 60).get? 0
        = some (maxTextLen (writeSheet demoTable).rows 0 + 3))) :=
  ⟨by decide, c5_column_width (writeSheet demoTable).rows 3 60 0 (by decide)⟩

/--
**C10.**  In the column-width computation an absent cell contributes the
textual width 4 (the length of the string `"None"`), not 0: a column whose
data cells are all absent, below a header shorter than 4 characters, has
measured maximum 4, and its assigned width is `4 + margin` whenever that is
within the cap.
-/
theorem c10_none_cells_width (rows : List (List Cell)) (j : Nat)
    (hc : Cell) (tl : List Cell)
    (hcol : colCells rows j = hc :: tl)
    (hhdr : cellLen hc < 4)
    (htl : ∀ c ∈ tl, c.value = Value.none)
    (hne : tl ≠ []) :
    colMaxLen rows j = 4 ∧
    ∀ margin cap : Nat, 4 + margin ≤ cap →
      (computeWidths rows margin cap).get? j = some (4 + margin) := by
  have hmax : colMaxLen rows j = 4 := by
    rw [colMaxLen, foldIf_eq_foldMax, hcol, List.map_cons, List.foldl_cons]
    refine foldl_max_all4 (tl.map cellLen) _ ?_ ?_ ?_
    · intro x hx
      rcases List.mem_map.mp hx with ⟨c, hcmem, rfl⟩
      exact cellLen_none c (htl c hcmem)
    · intro hmapnil
      exact hne (List.map_eq_nil.mp hmapnil)
    · have : Nat.max 0 (cellLen hc) = cellLen hc := Nat.zero_max (cellLen hc)
      rw [this]
      exact Nat.le_of_lt hhdr
  have hj : j < ncols rows := by
    apply colCells_cons_lt_ncols rows j
    rw [hcol]
    exact List.cons_ne_nil hc tl
  refine ⟨hmax, fun margin cap hcap => ?_⟩
  rw [computeWidths_get rows margin cap j hj, hmax, Nat.min_eq_left hcap]

/-- Witness for C10 at the all-absent one-column grid, margin 3, cap 60. -/
theorem c10_none_cells_width_witness :
    colCells noneColumnRows 0
        = plainCell (.str "ab") :: [plainCell Value.none, plainCell Value.none] ∧
    cellLen (plainCell (.str "ab")) < 4 ∧
    (colMaxLen noneColumnRows 0 = 4 ∧
     ∀ margin cap : Nat, 4 + margin ≤ cap →
       (computeWidths noneColumnRows margin cap).get? 0 = some (4 + margin)) :=
  ⟨rfl, by decide,
   c10_none_cells_width noneColumnRows 0 (plainCell (.str "ab"))
     [plainCell Value.none, plainCell Value.none]
     rfl (by decide) (by decide) (by decide)⟩

/-! ### Formatting preserves cell values and grid shape -/

@[simp] theorem value_styleHeaderCell (col : String) (c : Cell) :
    (styleHeaderCell col c).value = c.value := rfl

@[simp] theorem value_borderCell (c : Cell) :
    (borderCell c).value = c.value := rfl

@[simp] theorem value_bandCell (c : Cell) :
    (bandCell c).value = c.value := by
  unfold bandCell; split <;> rfl

theorem rowValues_formatRow (i : Nat) (row : List Cell) :
    rowValues (formatRow i row) = rowValues row := by
  unfold formatRow
  split <;> simp [rowValues, List.map_map, Function.comp]

theorem enumFrom_formatRow_values (rest : List (List Cell)) :
    ∀ n : Nat,
      ((List.enumFrom n rest).map (fun p => formatRow p.1 p.2)).map rowValues
        = rest.map rowValues := by
  induction rest with
  | nil => intro n; rfl
  | cons r tl ih =>
      intro n
      simp only [List.enumFrom, List.map_cons]
      rw [rowValues_formatRow, ih (n + 1)]

theorem valuesGrid_headerPass (col : String) (rows : List (List Cell)) :
    valuesGrid (headerPass col rows) = valuesGrid rows := by
  cases rows with
  | nil => rfl
  | cons hdr rest =>
      simp [headerPass, valuesGrid, rowValues, List.map_map, Function.comp]

theorem valuesGrid_bandBorderPass (rows : List (List Cell)) :
    valuesGrid (bandBorderPass rows) = valuesGrid rows := by
  cases rows with
  | nil => rfl
  | cons hdr rest =>
      simp only [bandBorderPass, valuesGrid, List.map_cons]
      rw [enumFrom_formatRow_values rest 2]

theorem shape_eq_of_valuesGrid (x y : List (List Cell))
    (h : valuesGrid x = valuesGrid y) :
    x.map List.length = y.map List.length := by
  have hx : x.map List.length = (valuesGrid x).map List.length := by
    simp [valuesGrid, rowValues, List.map_map, Function.comp]
  have hy : y.map List.length = (valuesGrid y).map List.length := by
    simp [valuesGrid, rowValues, List.map_map, Function.comp]
  rw [hx, hy, h]

theorem length_eq_of_valuesGrid (x y : List (List Cell))
    (h : valuesGrid x = valuesGrid y) : x.length = y.length := by
  have := congrArg List.length h
  simpa [valuesGrid] using this

theorem ncols_congr (x y : List (List Cell))
    (h : valuesGrid x = valuesGrid y) : ncols x = ncols y := by
  unfold ncols
  rw [shape_eq_of_valuesGrid x y h]

theorem colCells_values (rows : List (List Cell)) (j : Nat) :
    (colCells rows j).map Cell.value
      = (valuesGrid rows).filterMap (fun r => r.get? j) := by
  induction rows with
  | nil => rfl
  | cons r rest ih =>
      simp only [colCells, valuesGrid, List.map_cons, List.filterMap_cons]
      cases h : r.get? j with
      | none =>
          have h2 : (rowValues r).get? j = Option.none := by
            rw [rowValues, List.get?_map, h]; rfl
          rw [h2]
          exact ih
      | some c =>
          have h2 : (rowValues r).get? j = some c.value := by
            rw [rowValues, List.get?_map, h]; rfl
          rw [h2, List.map_cons]
          exact congrArg (c.value :: ·) ih

theorem colMaxLen_congr (x y : List (List Cell))
    (h : valuesGrid x = valuesGrid y) (j : Nat) :
    colMaxLen x j = colMaxLen y j := by
  rw [colMaxLen_eq_maxTextLen, colMaxLen_eq_maxTextLen]
  unfold maxTextLen
  have hx : (colCells x j).map cellLen
      = ((colCells x j).map Cell.value).map (fun v => (pyStr v).length) := by
    simp [cellLen, List.map_map, Function.comp]
  have hy : (colCells y j).map cellLen
      = ((colCells y j).map Cell.value).map (fun v => (pyStr v).length) := by
    simp [cellLen, List.map_map, Function.comp]
  rw [hx, hy, colCells_values, colCells_values, h]

theorem computeWidths_congr (x y : List (List Cell))
    (h : valuesGrid x = valuesGrid y) (margin cap : Nat) :
    computeWidths x margin cap = computeWidths y margin cap := by
  unfold computeWidths
  rw [ncols_congr x y h]
  exact List.map_congr_left (fun j _ => by rw [colMaxLen_congr x y h j])

theorem dimensionsOf_congr (x y : List (List Cell))
    (h : valuesGrid x = valuesGrid y) :
    dimensionsOf x = dimensionsOf y := by
  unfold dimensionsOf
  rw [ncols_congr x y h, length_eq_of_valuesGrid x y h]

/-! ### Claim C1: which data rows carry the banding fill -/

/--
**C1, counterexample.**  The claim says that in the rendered `Demo` sheet the
row containing `(b,2)` (sheet row 3) carries the banding fill while the row
containing `(a,1)` (sheet row 2) does not.  The code bands the even sheet
rows starting at the first data row (`row_idx % 2 == 0` with `start=2`), so
it is exactly the other way around: sheet row 2 = `(a,1)` is banded, sheet
row 3 = `(b,2)` is not.
-/
theorem c1_banding_claim_false :
    render (fun _ => "4472C4") demoWb = .ok [demoSheetF] ∧
    valuesGrid demoSheetF.rows =
      [[.str "Name", .str "Value"], [.str "a", .int 1], [.str "b", .int 2]] ∧
    ¬ (rowHasBandingFill demoSheetF 3 = true ∧
       rowHasBandingFill demoSheetF 2 = false) :=
  ⟨rfl, rfl, by decide⟩

/--
**C1, amended.**  The banding fill is applied to the 1st, 3rd, … data rows
counting from the first data row (the even sheet rows, the header being
row 1): in the rendered `Demo` sheet the row containing `(a,1)` carries the
banding fill and the row containing `(b,2)` does not.
-/
theorem c1_banding_amended :
    render (fun _ => "4472C4") demoWb = .ok [demoSheetF] ∧
    valuesGrid demoSheetF.rows =
      [[.str "Name", .str "Value"], [.str "a", .int 1], [.str "b", .int 2]] ∧
    rowHasBandingFill demoSheetF 2 = true ∧
    rowHasBandingFill demoSheetF 3 = false :=
  ⟨rfl, rfl, by decide, by decide⟩

/-! ### The render pipeline -/

@[simp] theorem value_plainCell (v : Value) : (plainCell v).value = v := rfl

theorem format_worksheet_title (ws : Worksheet) (c : String) (f : Bool) :
    (format_worksheet ws c f).title = ws.title := rfl

theorem format_worksheet_rows (ws : Worksheet) (c : String) (f : Bool) :
    (format_worksheet ws c f).rows = bandBorderPass (headerPass c ws.rows) := rfl

theorem format_worksheet_freeze (ws : Worksheet) (c : String) (f : Bool) :
    (format_worksheet ws c f).freezePanes
      = if f then some "B2" else ws.freezePanes := rfl

theorem valuesGrid_format (ws : Worksheet) (c : String) (f : Bool) :
    valuesGrid (format_worksheet ws c f).rows = valuesGrid ws.rows := by
  rw [format_worksheet_rows, valuesGrid_bandBorderPass, valuesGrid_headerPass]

theorem valuesGrid_writeSheet (t : Table) :
    valuesGrid (writeSheet t).rows
      = (t.fields.map Value.str)
          :: t.records.map (fun r => r.map Prod.snd) := by
  simp [writeSheet, valuesGrid, rowValues, headerRowOf, dataRowOf,
        List.map_map, Function.comp]

theorem render_eq_ok (colorFor : String → String) (wb : List Table)
    (h : validWorkbook wb = true) :
    render colorFor wb
      = .ok (wb.map (fun t =>
          format_worksheet (writeSheet t) (colorFor t.name) true)) := by
  unfold render
  rw [if_pos h]

theorem render_ok_elim (colorFor : String → String) (wb : List Table)
    (sheets : List Worksheet) (h : render colorFor wb = .ok sheets) :
    validWorkbook wb = true ∧
    sheets = wb.map (fun t =>
      format_worksheet (writeSheet t) (colorFor t.name) true) := by
  unfold render at h
  by_cases hv : validWorkbook wb = true
  · rw [if_pos hv] at h
    exact ⟨hv, (Except.ok.inj h).symm⟩
  · rw [if_neg hv] at h
    exact absurd h (by intro hc; cases hc)

theorem uniqueNames_no_dup (l : List String) :
    uniqueNames l = true →
    ∀ a b : Nat, ∀ x : String,
      a ≠ b → l.get? a = some x → l.get? b = some x → False := by
  induction l with
  | nil =>
      intro _ a b x _ ha _
      cases ha
  | cons n rest ih =>
      intro h a b x hab ha hb
      have hcont : rest.contains n = false := by
        have := (Bool.and_eq_true _ _).mp h |>.1
        cases hc : rest.contains n
        · rfl
        · rw [hc] at this; cases this
      have hrest : uniqueNames rest = true :=
        (Bool.and_eq_true _ _).mp h |>.2
      have hmemfalse : n ∉ rest := by
        intro hmem
        have : rest.contains n = true := List.elem_eq_true_of_mem hmem
        rw [hcont] at this
        cases this
      cases a with
      | zero =>
          cases b with
          | zero => exact hab rfl
          | succ m =>
              have hx : x = n := by
                have := Option.some.inj ha
                exact this.symm
              have hxm : x ∈ rest := List.get?_mem hb
              rw [hx] at hxm
              exact hmemfalse hxm
      | succ a' =>
          cases b with
          | zero =>
              have hx : x = n := by
                have := Option.some.inj hb
                exact this.symm
              have hxm : x ∈ rest := List.get?_mem ha
              rw [hx] at hxm
              exact hmemfalse hxm
          | succ b' =>
              exact ih hrest a' b' x
                (fun he => hab (congrArg Nat.succ he)) ha hb

/-! ### Claim C2: one sheet per table, in order, with the right header -/

/--
**C2.**  For every non-empty workbook with unique sheet names and internally
consistent record schemas, `render` succeeds, the output contains exactly one
sheet per input table, in input order (sheet `k` is titled like table `k`),
and each sheet's first row equals that table's field names in declared
order.
-/
theorem c2_render_success (colorFor : String → String) (wb : List Table)
    (hne : wb ≠ []) (hval : validWorkbook wb = true) :
    ∃ sheets, render colorFor wb = .ok sheets ∧
      sheets.length = wb.length ∧
      (∀ k : Nat, (sheets.get? k).map Worksheet.title
                    = (wb.get? k).map Table.name) ∧
      (∀ k : Nat, ∀ t : Table, ∀ s : Worksheet,
        wb.get? k = some t → sheets.get? k = some s →
          (valuesGrid s.rows).get? 0 = some (t.fields.map Value.str)) := by
  refine ⟨_, render_eq_ok colorFor wb hval, List.length_map _ _, ?_, ?_⟩
  · intro k
    rw [List.get?_map]
    cases h : wb.get? k with
    | none => rfl
    | some t => rfl
  · intro k t s ht hs
    rw [List.get?_map, ht] at hs
    have hst : s = format_worksheet (writeSheet t) (colorFor t.name) true :=
      (Option.some.inj hs).symm
    rw [hst]
    have hvg := valuesGrid_format (writeSheet t) (colorFor t.name) true
    rw [hvg, valuesGrid_writeSheet]
    rfl

/-- Witness for C2 at the demo workbook. -/
theorem c2_render_success_witness :
    demoWb ≠ [] ∧ validWorkbook demoWb = true ∧
    (∃ sheets, render (fun _ => "4472C4") demoWb = .ok sheets ∧
      sheets.length = demoWb.length ∧
      (∀ k : Nat, (sheets.get? k).map Worksheet.title
                    = (demoWb.get? k).map Table.name) ∧
      (∀ k : Nat, ∀ t : Table, ∀ s : Worksheet,
        demoWb.get? k = some t → sheets.get? k = some s →
          (valuesGrid s.rows).get? 0 = some (t.fields.map Value.str))) :=
  ⟨by decide, by decide,
   c2_render_success (fun _ => "4472C4") demoWb (by decide) (by decide)⟩

/-! ### Claim C3: one data row per record, values in declared column order -/

/--
**C3.**  For every table of a successfully rendered workbook, the output
sheet has exactly one data row per input record (header row not counted),
data row `m` holds record `m`'s values in order, and the value written in
output column `i` is the value of the `i`-th field of that record as
declared in the table's schema; rows and columns are not reordered.
-/
theorem c3_rows_columns (colorFor : String → String) (wb : List Table)
    (sheets : List Worksheet) (h : render colorFor wb = .ok sheets) :
    ∀ k : Nat, ∀ t : Table, ∀ s : Worksheet,
      wb.get? k = some t → sheets.get? k = some s →
        s.rows.length = t.records.length + 1 ∧
        (∀ m : Nat, ∀ r : List (String × Value),
          t.records.get? m = some r →
            (valuesGrid s.rows).get? (m + 1) = some (r.map Prod.snd)) ∧
        (∀ m i : Nat, ∀ r : List (String × Value), ∀ p : String × Value,
          t.records.get? m = some r → r.get? i = some p →
            (∃ row, (valuesGrid s.rows).get? (m + 1) = some row ∧
                    row.get? i = some p.2) ∧
            t.fields.get? i = some p.1) := by
  rcases render_ok_elim colorFor wb sheets h with ⟨hval, hsheets⟩
  intro k t s ht hs
  rw [hsheets, List.get?_map, ht] at hs
  have hst : s = format_worksheet (writeSheet t) (colorFor t.name) true :=
    (Option.some.inj hs).symm
  have hvg : valuesGrid s.rows
      = (t.fields.map Value.str)
          :: t.records.map (fun r => r.map Prod.snd) := by
    rw [hst, valuesGrid_format, valuesGrid_writeSheet]
  have hcons : tableConsistent t = true := by
    have hall : wb.all tableConsistent = true :=
      ((Bool.and_eq_true _ _).mp hval).2
    exact List.all_eq_true.mp hall t (List.get?_mem ht)
  have hfields : ∀ r : List (String × Value), ∀ m : Nat,
      t.records.get? m = some r → r.map Prod.fst = t.fields := by
    intro r m hm
    have := List.all_eq_true.mp hcons r (List.get?_mem hm)
    exact eq_of_beq this
  refine ⟨?_, ?_, ?_⟩
  · have hlen : s.rows.length = (valuesGrid s.rows).length := by
      simp [valuesGrid]
    rw [hlen, hvg]
    simp
  · intro m r hm
    rw [hvg, List.get?_cons_succ, List.get?_map, hm]
    rfl
  · intro m i r p hm hp
    refine ⟨⟨r.map Prod.snd, ?_, ?_⟩, ?_⟩
    · rw [hvg, List.get?_cons_succ, List.get?_map, hm]; rfl
    · rw [List.get?_map, hp]; rfl
    · rw [← hfields r m hm, List.get?_map, hp]; rfl

/-- Witness for C3 at the demo workbook. -/
theorem c3_rows_columns_witness :
    render (fun _ => "4472C4") demoWb = .ok [demoSheetF] ∧
    (∀ k : Nat, ∀ t : Table, ∀ s : Worksheet,
      demoWb.get? k = some t → [demoSheetF].get? k = some s →
        s.rows.length = t.records.length + 1 ∧
        (∀ m : Nat, ∀ r : List (String × Value),
          t.records.get? m = some r →
            (valuesGrid s.rows).get? (m + 1) = some (r.map Prod.snd)) ∧
        (∀ m i : Nat, ∀ r : List (String × Value), ∀ p : String × Value,
          t.records.get? m = some r → r.get? i = some p →
            (∃ row, (valuesGrid s.rows).get? (m + 1) = some row ∧
                    row.get? i = some p.2) ∧
            t.fields.get? i = some p.1)) :=
  ⟨rfl, c3_rows_columns (fun _ => "4472C4") demoWb [demoSheetF] rfl⟩

/-! ### Claim C4: duplicate sheet names fail up front -/

/--
**C4.**  For every workbook containing two tables that share a sheet name,
`render` fails with `SchemaError`, and the file state at the output path is
unchanged by the failing call.
-/
theorem c4_duplicate_sheet_names (colorFor : String → String)
    (wb : List Table) (i j : Nat) (ti tj : Table)
    (hij : i ≠ j) (hi : wb.get? i = some ti) (hj : wb.get? j = some tj)
    (hname : ti.name = tj.name) :
    render colorFor wb = .error .schemaError ∧
    ∀ prev : Option (List Worksheet),
      renderToFile colorFor wb prev = prev := by
  have huniq : uniqueNames (wb.map Table.name) = false := by
    cases hu : uniqueNames (wb.map Table.name) with
    | false => rfl
    | true =>
        exfalso
        refine uniqueNames_no_dup (wb.map Table.name) hu i j tj.name hij ?_ ?_
        · rw [List.get?_map, hi]
          exact congrArg some hname
        · rw [List.get?_map, hj]; rfl
  have hval : ¬ validWorkbook wb = true := by
    intro hv
    have := ((Bool.and_eq_true _ _).mp hv).1
    rw [huniq] at this
    cases this
  have herr : render colorFor wb = .error .schemaError := by
    unfold render
    rw [if_neg hval]
  refine ⟨herr, fun prev => ?_⟩
  unfold renderToFile
  rw [herr]

/-- Witness for C4: a workbook with two tables both named `"Dup"`. -/
theorem c4_duplicate_sheet_names_witness :
    (0 : Nat) ≠ 1 ∧
    [{ demoTable with name := "Dup" },
     { demoTable with name := "Dup", records := [] }].get? 0
        = some { demoTable with name := "Dup" } ∧
    (render (fun _ => "4472C4")
        [{ demoTable with name := "Dup" },
         { demoTable with name := "Dup", records := [] }]
      = .error .schemaError ∧
     ∀ prev : Option (List Worksheet),
       renderToFile (fun _ => "4472C4")
         [{ demoTable with name := "Dup" },
          { demoTable with name := "Dup", records := [] }] prev = prev) :=
  ⟨by decide, by decide,
   c4_duplicate_sheet_names (fun _ => "4472C4")
     [{ demoTable with name := "Dup" },
      { demoTable with name := "Dup", records := [] }]
     0 1 { demoTable with name := "Dup" }
     { demoTable with name := "Dup", records := [] }
     (by decide) (by decide) (by decide) rfl⟩

/-! ### Claim C6: frozen panes at B2 on every sheet -/

/--
**C6.**  Every sheet of the rendered output has its frozen-pane anchor set
at cell `B2` (row 2, column 2), keeping the header row and the first column
visible while scrolling.
-/
theorem c6_freeze_panes (colorFor : String → String) (wb : List Table)
    (sheets : List Worksheet) (h : render colorFor wb = .ok sheets) :
    ∀ s ∈ sheets, s.freezePanes = some "B2" := by
  rcases render_ok_elim colorFor wb sheets h with ⟨_, hsheets⟩
  intro s hs
  rw [hsheets] at hs
  rcases List.mem_map.mp hs with ⟨t, _, rfl⟩
  rfl

/-- Witness for C6 at the demo workbook. -/
theorem c6_freeze_panes_witness :
    render (fun _ => "4472C4") demoWb = .ok [demoSheetF] ∧
    ∀ s ∈ [demoSheetF], s.freezePanes = some "B2" :=
  ⟨rfl, c6_freeze_panes (fun _ => "4472C4") demoWb [demoSheetF] rfl⟩

/-! ### Claim C7: rendering is deterministic -/

/--
**C7.**  Rendering the same workbook to two different paths produces
identical structural content (sheets, cell values, formatting): the content
of the output artifact depends only on the workbook, never on the
destination path or any ambient state.
-/
theorem c7_deterministic (colorFor : String → String) (wb : List Table)
    (p q : String) :
    (renderFile colorFor wb p).content = (renderFile colorFor wb q).content :=
  rfl

/-! ### Claim C9: format_worksheet is idempotent -/

theorem ws_eq (a b : Worksheet) (h1 : a.title = b.title) (h2 : a.rows = b.rows)
    (h3 : a.autoFilterRef = b.autoFilterRef)
    (h4 : a.freezePanes = b.freezePanes)
    (h5 : a.colWidths = b.colWidths) : a = b := by
  cases a; cases b
  congr 1

theorem styleHeaderCell_idem (col : String) (c : Cell) :
    styleHeaderCell col (styleHeaderCell col c) = styleHeaderCell col c := rfl

theorem cell_bb_idem (c : Cell) :
    borderCell (bandCell (borderCell (bandCell c))) = borderCell (bandCell c) := by
  unfold bandCell borderCell
  by_cases h : c.fill = UNFILLED_COLOR
  · simp [h, show ¬ (LIGHT_FILL = UNFILLED_COLOR) by decide]
  · simp [h]

theorem formatRow_idem (i : Nat) (row : List Cell) :
    formatRow i (formatRow i row) = formatRow i row := by
  unfold formatRow
  by_cases h : i % 2 = 0
  · rw [if_pos h, if_pos h]
    simp only [List.map_map]
    congr 1
    funext c
    simp only [Function.comp]
    exact cell_bb_idem c
  · rw [if_neg h, if_neg h]
    simp only [List.map_map]
    congr 1

theorem enumFrom_formatRow_idem (rest : List (List Cell)) :
    ∀ n : Nat,
      (List.enumFrom n
          ((List.enumFrom n rest).map (fun p => formatRow p.1 p.2))).map
        (fun p => formatRow p.1 p.2)
        = (List.enumFrom n rest).map (fun p => formatRow p.1 p.2) := by
  induction rest with
  | nil => intro n; rfl
  | cons r tl ih =>
      intro n
      simp only [List.enumFrom, List.map_cons]
      rw [formatRow_idem, ih (n + 1)]

theorem bandBorderPass_idem (rows : List (List Cell)) :
    bandBorderPass (bandBorderPass rows) = bandBorderPass rows := by
  cases rows with
  | nil => rfl
  | cons hdr rest =>
      simp only [bandBorderPass]
      rw [enumFrom_formatRow_idem rest 2]

theorem headerPass_bandBorder (col : String) (rows : List (List Cell)) :
    headerPass col (bandBorderPass (headerPass col rows))
      = bandBorderPass (headerPass col rows) := by
  cases rows with
  | nil => rfl
  | cons hdr rest =>
      simp only [headerPass, bandBorderPass]
      rw [List.map_map]
      congr 1

/--
**C9.**  `format_worksheet` is idempotent: applying it twice with the same
arguments leaves the worksheet (cell fills, fonts, alignments, borders,
auto-filter range, frozen panes, column widths) exactly as one application
does; in particular a cell already carrying the banding or header fill is
never re-filled.
-/
theorem c9_format_worksheet_idem (ws : Worksheet) (c : String) (f : Bool) :
    format_worksheet (format_worksheet ws c f) c f
      = format_worksheet ws c f := by
  apply ws_eq
  · rfl
  · show bandBorderPass (headerPass c (bandBorderPass (headerPass c ws.rows)))
        = bandBorderPass (headerPass c ws.rows)
    rw [headerPass_bandBorder, bandBorderPass_idem]
  · show some (dimensionsOf (headerPass c (bandBorderPass (headerPass c ws.rows))))
        = some (dimensionsOf (headerPass c ws.rows))
    rw [headerPass_bandBorder]
    exact congrArg some
      (dimensionsOf_congr _ _ (valuesGrid_bandBorderPass (headerPass c ws.rows)))
  · show (if f then some "B2" else (format_worksheet ws c f).freezePanes)
        = if f then some "B2" else ws.freezePanes
    cases f
    · rfl
    · rfl
  · show computeWidths (headerPass c (bandBorderPass (headerPass c ws.rows))) 3 60
        = computeWidths (headerPass c ws.rows) 3 60
    rw [headerPass_bandBorder]
    exact computeWidths_congr _ _
      (valuesGrid_bandBorderPass (headerPass c ws.rows)) 3 60

/-! ### Claim C8: the data-structures script only sets column widths -/

theorem plainCell_default (v : Value) :
    (plainCell v).fill = UNFILLED_COLOR ∧ (plainCell v).font = Option.none ∧
    (plainCell v).align = Option.none ∧ (plainCell v).hasBorder = false :=
  ⟨rfl, rfl, rfl, rfl⟩

theorem writeSheet_cells_default (t : Table) :
    ∀ row ∈ (writeSheet t).rows, ∀ c ∈ row,
      c.fill = UNFILLED_COLOR ∧ c.font = Option.none ∧
      c.align = Option.none ∧ c.hasBorder = false := by
  intro row hrow c hc
  rcases List.mem_cons.mp hrow with h | h
  · subst h
    rcases List.mem_map.mp hc with ⟨fld, _, rfl⟩
    exact plainCell_default _
  · rcases List.mem_map.mp h with ⟨r, _, rfl⟩
    rcases List.mem_map.mp hc with ⟨p, _, rfl⟩
    exact plainCell_default _

/--
**C8.**  The data-structures catalog writer block modifies only the column
widths: `dsWidthPass` leaves the title, rows, auto-filter and frozen panes
of its sheet untouched, and every sheet it produces has no auto-filter, no
frozen panes, and only default-styled cells (no header fill or font, no
border, no banding fill).
-/
theorem c8_ds_only_widths :
    (∀ ws : Worksheet,
      (dsWidthPass ws).title = ws.title ∧
      (dsWidthPass ws).rows = ws.rows ∧
      (dsWidthPass ws).autoFilterRef = ws.autoFilterRef ∧
      (dsWidthPass ws).freezePanes = ws.freezePanes) ∧
    (∀ tables : List Table, ∀ s ∈ dsGenerate tables,
      s.autoFilterRef = Option.none ∧ s.freezePanes = Option.none ∧
      ∀ row ∈ s.rows, ∀ c ∈ row,
        c.fill = UNFILLED_COLOR ∧ c.font = Option.none ∧
        c.align = Option.none ∧ c.hasBorder = false) := by
  refine ⟨fun ws => ⟨rfl, rfl, rfl, rfl⟩, ?_⟩
  intro tables s hs
  rcases List.mem_map.mp hs with ⟨t, _, rfl⟩
  exact ⟨rfl, rfl, writeSheet_cells_default t⟩

/-- Witness for C8 at the demo table. -/
theorem c8_ds_only_widths_witness :
    dsWidthPass (writeSheet demoTable) ∈ dsGenerate [demoTable] ∧
    ((dsWidthPass (writeSheet demoTable)).autoFilterRef = Option.none ∧
     (dsWidthPass (writeSheet demoTable)).freezePanes = Option.none ∧
     ∀ row ∈ (dsWidthPass (writeSheet demoTable)).rows, ∀ c ∈ row,
       c.fill = UNFILLED_COLOR ∧ c.font = Option.none ∧
       c.align = Option.none ∧ c.hasBorder = false) :=
  ⟨List.mem_singleton.mpr rfl,
   c8_ds_only_widths.2 [demoTable] (dsWidthPass (writeSheet demoTable))
     (List.mem_singleton.mpr rfl)⟩

end ExcelDSA
